import Mathlib

/-!
Verification of the predictive-monitoring core of checkmk
(`cmk/base/prediction.py`).

The Python source is shallowly embedded below.  External collaborators
that live outside the verified file (`cmk.utils.prediction.timezone_at`,
`time.localtime`, `cmk.utils.defines.weekday_ids`, the RRD data fetch,
`bfill_upsample`, the file store and `estimate_levels`) are passed in as
explicit parameters, collected in the structures `TimeEnv` and `GLEnv`.
Python floats are modelled by real numbers, timestamps by integers, and
exceptions by `Option`/`Except` results.
-/

namespace CmkPrediction

/-- External time facilities used by the grouping functions:
`tz t` models `cmk.utils.prediction.timezone_at(t)`, `tmWday t` models
`time.localtime(t).tm_wday`, `tmMday t` models `time.localtime(t).tm_mday`,
and `weekdayIds` models `cmk.utils.defines.weekday_ids()`. -/
structure TimeEnv where
  tz : Int → Int
  tmWday : Int → Nat
  tmMday : Int → Nat
  weekdayIds : List String

/-- Embeds `_PeriodInfo` (`slice`, `groupby`, `valid`). -/
structure PeriodInfo where
  slice : Int
  groupby : Int → String × Int
  valid : Int

/-- Embeds `_window_start(timestamp, span)`:
`(timestamp - timezone_at(timestamp)) % span`.  Python `%` with a positive
modulus agrees with `Int.emod`. -/
def windowStart (env : TimeEnv) (timestamp span : Int) : Int :=
  (timestamp - env.tz timestamp) % span

/-- Embeds `_group_by_wday`. -/
def groupByWday (env : TimeEnv) (t : Int) : String × Int :=
  (env.weekdayIds.getD (env.tmWday t) "", windowStart env t 86400)

/-- Embeds `_group_by_day` (the "hour" period's grouping). -/
def groupByDay (env : TimeEnv) (t : Int) : String × Int :=
  ("everyday", windowStart env t 86400)

/-- Embeds `_group_by_day_of_month`. -/
def groupByDayOfMonth (env : TimeEnv) (t : Int) : String × Int :=
  (toString (env.tmMday t), windowStart env t 86400)

/-- Embeds `_group_by_everyhour`. -/
def groupByEveryhour (env : TimeEnv) (t : Int) : String × Int :=
  ("everyhour", windowStart env t 3600)

/-- Embeds the `_PREDICTION_PERIODS` table; `none` models the `KeyError`
raised by an unknown key. -/
def predictionPeriods (env : TimeEnv) : String → Option PeriodInfo
  | "wday" => some ⟨86400, groupByWday env, 7⟩
  | "day" => some ⟨86400, groupByDayOfMonth env, 28⟩
  | "hour" => some ⟨86400, groupByDay env, 1⟩
  | "minute" => some ⟨3600, groupByEveryhour env, 24⟩
  | _ => none

/-- Embeds `_get_prediction_timegroup(t, period_info)`: returns
`(timegroup, from_time, until_time, rel_time)`. -/
def getPredictionTimegroup (p : PeriodInfo) (t : Int) :
    String × Int × Int × Int :=
  let g := p.groupby t
  (g.1, t - g.2, t - g.2 + p.slice, g.2)

/-- Embeds Python `range(a, b, -s)` for a positive step `s`: the list
`a, a - s, a - 2*s, ...` of all values strictly greater than `b`. -/
def negRange (a b s : Int) : List Int :=
  (List.range (if a ≤ b then 0 else ((a - b + s - 1) / s).toNat)).map
    (fun (i : Nat) => a - s * (i : Int))

/-- Embeds `_time_slices(timestamp, horizon, period_info, timegroup)`:
walk backward from `timestamp` in steps of `period_info.slice` until
`timestamp - horizon` is passed, keeping the `(start, end)` window of every
step whose resolved timegroup equals `timegroup`. -/
def timeSlices (p : PeriodInfo) (timestamp horizon : Int)
    (timegroup : String) : List (Int × Int) :=
  (negRange timestamp (timestamp - horizon) p.slice).filterMap
    (fun b =>
      let r := getPredictionTimegroup p b
      if r.1 = timegroup then some (r.2.1, r.2.2.1) else none)

/-- Embeds `_std_dev(point_line, average)`: `abs(average)` for a single
sample, otherwise
`sqrt(abs(sum(p**2) - average**2 * samples) / float(samples - 1))`.
Python floats are modelled by real numbers. -/
noncomputable def stdDev (pointLine : List ℝ) (average : ℝ) : ℝ :=
  if pointLine.length = 1 then |average|
  else
    Real.sqrt
      (|(pointLine.map fun p => p ^ 2).sum -
          average ^ 2 * (pointLine.length : ℝ)| /
        ((pointLine.length : ℝ) - 1))

mutual
/-- A Python/JSON value as it appears in prediction parameters:
`None`, booleans, numbers, strings, lists, tuples and string-keyed
dictionaries. -/
inductive PyVal where
  | none
  | bool (b : Bool)
  | num (q : ℚ)
  | str (s : String)
  | list (xs : PyList)
  | tuple (xs : PyList)
  | dict (xs : PyDict)
/-- A list of Python values. -/
inductive PyList where
  | nil
  | cons (v : PyVal) (tl : PyList)
/-- A string-keyed Python dictionary, as an association sequence. -/
inductive PyDict where
  | nil
  | cons (k : String) (v : PyVal) (tl : PyDict)
end

mutual
/-- Embeds `json.loads(json.dumps(·))`: the normalize-via-serialize round
trip, which turns tuples into lists and leaves everything else intact. -/
def jsonRoundtrip : PyVal → PyVal
  | .none => .none
  | .bool b => .bool b
  | .num q => .num q
  | .str s => .str s
  | .list xs => .list (jsonRoundtripL xs)
  | .tuple xs => .list (jsonRoundtripL xs)
  | .dict xs => .dict (jsonRoundtripD xs)
/-- Round trip of a Python list. -/
def jsonRoundtripL : PyList → PyList
  | .nil => .nil
  | .cons v tl => .cons (jsonRoundtrip v) (jsonRoundtripL tl)
/-- Round trip of a Python dictionary. -/
def jsonRoundtripD : PyDict → PyDict
  | .nil => .nil
  | .cons k v tl => .cons k (jsonRoundtrip v) (jsonRoundtripD tl)
end

/-- Key lookup in a Python dictionary value. -/
def dictLookup (k : String) : PyDict → Option PyVal
  | .nil => Option.none
  | .cons k2 v tl => if k2 = k then some v else dictLookup k tl

/-- Number of entries of a Python dictionary value. -/
def dictLen : PyDict → Nat
  | .nil => 0
  | .cons _ _ tl => dictLen tl + 1

mutual
/-- Python structural equality (`==`) on the modelled values: tuples never
equal lists, dictionaries compare by key lookup independently of entry
order. -/
def pyEq : PyVal → PyVal → Bool
  | .none, .none => true
  | .bool a, .bool b => a == b
  | .num a, .num b => a == b
  | .str a, .str b => a == b
  | .list a, .list b => pyEqL a b
  | .tuple a, .tuple b => pyEqL a b
  | .dict a, .dict b => dictLen a == dictLen b && pyEqD a b
  | _, _ => false
/-- Pointwise Python equality of lists. -/
def pyEqL : PyList → PyList → Bool
  | .nil, .nil => true
  | .cons v tl, .cons w tw => pyEq v w && pyEqL tl tw
  | _, _ => false
/-- Every entry of the first dictionary is present and equal in the
second. -/
def pyEqD : PyDict → PyDict → Bool
  | .nil, _ => true
  | .cons k v tl, b =>
    match dictLookup k b with
    | some w => pyEq v w && pyEqD tl b
    | Option.none => false
end

/-- The parsed contents of the persisted `.info` metadata sidecar, as read
back by `retrieve_data_for_prediction`: the stored `time` stamp and the
stored `params` entry (absent for legacy files). -/
structure LastInfo where
  time : Int
  params : Option PyVal

/-- The prediction parameters dictionary: the entries the core reads
(`params["period"]`, `params["horizon"]`) plus the raw dictionary value
`raw` used for the cache-parameter comparison. -/
structure Params where
  period : String
  horizon : ℚ
  raw : PyVal

/-- Comparison `last_info.get('params') != json.loads(json.dumps(params))`
from `_is_prediction_up_to_date`, as a match test (an absent stored entry
never matches). -/
def storedParamsMatch (storedParams : Option PyVal) (params : PyVal) : Bool :=
  match storedParams with
  | some stored => pyEq stored (jsonRoundtrip params)
  | Option.none => false

/-- Embeds `_is_prediction_up_to_date(pred_file, timegroup, params)`.
`lastInfo` is the result of the external metadata load, `now` models
`time.time()`.  `Option.none` models the `KeyError` of an unknown period
(unreachable from `get_levels`, which looks the period up first). -/
def isPredictionUpToDate (env : TimeEnv) (lastInfo : Option LastInfo)
    (now : Int) (params : Params) : Option Bool :=
  match lastInfo with
  | Option.none => some false
  | some info =>
    match predictionPeriods env params.period with
    | Option.none => Option.none
    | some periodInfo =>
      if info.time + periodInfo.valid * periodInfo.slice < now then
        some false
      else if storedParamsMatch info.params params.raw then some true
      else some false

/-- A raw time series as returned by the external `rrd_column` fetch:
its native `twindow = (start, end, step)` and its sample values. -/
structure TimeSeries where
  twindow : Int × Int × Int
  values : List (Option ℝ)

/-- The Python exceptions the embedded pipeline can raise:
`KeyError`, `IndexError`, `MKGeneralException("Got no historic metrics")`
(the spec's `NoHistoricDataError`) and `ZeroDivisionError`. -/
inductive PyErr where
  | keyError
  | indexError
  | noHistoricData
  | zeroDivisionError
deriving DecidableEq

/-- Embeds `_retrieve_grouped_data_from_rrd(rrd_column, time_windows)`:
`time_windows[0][0]` on an empty list raises `IndexError`; a zero native
step of the youngest slice raises the no-historic-data exception; otherwise
every slice is up-sampled onto the first window's native `twindow` with
shift `from_time - start`. -/
def retrieveGroupedDataFromRrd (rrd : Int → Int → TimeSeries)
    (bfill : TimeSeries → Int × Int × Int → Int → List (Option ℝ))
    (timeWindows : List (Int × Int)) :
    Except PyErr ((Int × Int × Int) × List (List (Option ℝ))) :=
  match timeWindows with
  | [] => .error .indexError
  | (s0, e0) :: _ =>
    let slices := timeWindows.map fun w => (rrd w.1 w.2, s0 - w.1)
    let twindow := (rrd s0 e0).twindow
    if twindow.2.2 = 0 then .error .noHistoricData
    else .ok (twindow, slices.map fun p => bfill p.1 twindow p.2)

/-- Length of the shortest series: the number of tuples produced by
Python's `zip(*slices)`. -/
def minLen : List (List (Option ℝ)) → Nat
  | [] => 0
  | l :: ls => ls.foldl (fun m x => min m x.length) l.length

/-- Embeds Python `zip(*slices)`: the columns of the row-major data,
truncated to the shortest row. -/
def pyTranspose (slices : List (List (Option ℝ))) : List (List (Option ℝ)) :=
  (List.range (minLen slices)).map fun i =>
    slices.map fun s => s.getD i Option.none

/-- Embeds Python `min` over a non-empty float list (0 on the empty list,
which the caller never passes). -/
noncomputable def pyMin : List ℝ → ℝ
  | [] => 0
  | x :: xs => xs.foldl min x

/-- Embeds Python `max` over a non-empty float list. -/
noncomputable def pyMax : List ℝ → ℝ
  | [] => 0
  | x :: xs => xs.foldl max x

/-- The loop body of `_data_stats` for one time column: the
`[average, min, max, stdev]` descriptor of its non-`None` values, or
`[None, None, None, None]` when it has none. -/
noncomputable def colStats (timeColumn : List (Option ℝ)) : List (Option ℝ) :=
  let pointLine := timeColumn.filterMap fun x => x
  if pointLine.isEmpty then
    [Option.none, Option.none, Option.none, Option.none]
  else
    let average := pointLine.sum / (pointLine.length : ℝ)
    [some average, some (pyMin pointLine), some (pyMax pointLine),
     some (stdDev pointLine average)]

/-- Embeds `_data_stats(slices)`: one descriptor per tuple of
`zip(*slices)`. -/
noncomputable def dataStats (slices : List (List (Option ℝ))) :
    List (List (Option ℝ)) :=
  (pyTranspose slices).map colStats

/-- The `_PredictionData` record persisted as the prediction summary. -/
structure PredictionData where
  columns : List String
  points : List (List (Option ℝ))
  numPoints : Nat
  dataTwindow : List Int
  step : Int

/-- Embeds `_calculate_data_for_prediction(time_windows, rrd_datacolumn)`. -/
noncomputable def calculateDataForPrediction (rrd : Int → Int → TimeSeries)
    (bfill : TimeSeries → Int × Int × Int → Int → List (Option ℝ))
    (timeWindows : List (Int × Int)) : Except PyErr PredictionData :=
  match retrieveGroupedDataFromRrd rrd bfill timeWindows with
  | .error e => .error e
  | .ok (twindow, slices) =>
    let descriptors := dataStats slices
    .ok ⟨["average", "min", "max", "stdev"], descriptors,
         descriptors.length, [twindow.1, twindow.2.1], twindow.2.2⟩

/-- Embeds Python `int(·)` on a number: truncation toward zero. -/
def pyInt (q : ℚ) : Int := if 0 ≤ q then q.floor else -((-q).floor)

/-- Embeds Python list indexing `l[i]` (negative indices count from the
end); `Option.none` models `IndexError`. -/
def pyIndex {α : Type} (l : List α) (i : Int) : Option α :=
  if 0 ≤ i then l[i.toNat]?
  else if (-i).toNat ≤ l.length then l[l.length - (-i).toNat]?
  else Option.none

/-- Lookup in `dict(zip(columns, point))`: the value of the last pair
carrying the key, as later pairs overwrite earlier ones. -/
def lookupLast {α : Type} (l : List (String × α)) (k : String) : Option α :=
  (l.reverse.find? fun p => p.1 == k).map (·.2)

/-- The externally observable file-system actions of `get_levels`. -/
inductive Effect where
  | makedirs
  | cleanupStale
  | readInfoFile
  | readDataFile
  | cleanupForce
  | fetchRrdData
  | writePredictionFiles
deriving DecidableEq

/-- All external collaborators of `get_levels`: the time facilities, the
current time, the two cache loads, the RRD fetch, the up-sampler and the
level estimator. -/
structure GLEnv where
  tenv : TimeEnv
  now : Int
  lastInfo : Option LastInfo
  cachedData : Option PredictionData
  rrd : Int → Int → TimeSeries
  bfill : TimeSeries → Int × Int × Int → Int → List (Option ℝ)
  estimate : Option ℝ → Option ℝ → Option ℝ × Option ℝ

/-- The tail of `get_levels`: `index = int(rel_time / step)`,
`reference = dict(zip(columns, points[index]))`, and the estimator call on
`reference["average"]` and `reference["stdev"]`. -/
def finishGetLevels (env : GLEnv) (relTime : Int) (d : PredictionData)
    (effs : List Effect) :
    Except PyErr (Option ℝ × (Option ℝ × Option ℝ)) × List Effect :=
  if d.step = 0 then (.error .zeroDivisionError, effs)
  else
    let index := pyInt ((relTime : ℚ) / (d.step : ℚ))
    match pyIndex d.points index with
    | Option.none => (.error .indexError, effs)
    | some pt =>
      let reference := d.columns.zip pt
      match lookupLast reference "average", lookupLast reference "stdev" with
      | some avg, some sd => (.ok (avg, env.estimate avg sd), effs)
      | _, _ => (.error .keyError, effs)

/-- Embeds `get_levels(...)` with its external collaborators abstracted:
the result (or raised exception) together with the ordered file-system
effects it performed. -/
noncomputable def getLevels (env : GLEnv) (params : Params) :
    Except PyErr (Option ℝ × (Option ℝ × Option ℝ)) × List Effect :=
  let now := env.now
  match predictionPeriods env.tenv params.period with
  | Option.none => (.error .keyError, [])
  | some periodInfo =>
    let timegroup := (periodInfo.groupby now).1
    let relTime := (periodInfo.groupby now).2
    match isPredictionUpToDate env.tenv env.lastInfo now params with
    | Option.none =>
      (.error .keyError, [.makedirs, .cleanupStale, .readInfoFile])
    | some fresh =>
      let eff1 : List Effect :=
        [.makedirs, .cleanupStale, .readInfoFile] ++
          (if fresh then [.readDataFile] else [])
      let dataForPred : Option PredictionData :=
        if fresh then env.cachedData else Option.none
      match dataForPred with
      | some d => finishGetLevels env relTime d eff1
      | Option.none =>
        let effs := eff1 ++ [.cleanupForce]
        let timeWindows :=
          timeSlices periodInfo now (pyInt (params.horizon * 86400))
            timegroup
        match calculateDataForPrediction env.rrd env.bfill timeWindows with
        | .error e => (.error e, effs ++ [.fetchRrdData])
        | .ok d =>
          finishGetLevels env relTime d
            (effs ++ [.fetchRrdData, .writePredictionFiles])

/-- A fixed concrete time environment used to instantiate theorems. -/
def tenv0 : TimeEnv :=
  ⟨fun _ => 0, fun _ => 0, fun _ => 0,
   ["monday", "tuesday", "wednesday", "thursday", "friday", "saturday",
    "sunday"]⟩

/-- The "minute" period of the table, over the concrete environment. -/
def p0 : PeriodInfo := ⟨3600, groupByEveryhour tenv0, 24⟩

/-- A concrete RRD fetch: native step 1, no samples. -/
def rrd0 : Int → Int → TimeSeries := fun s e => ⟨(s, e, 1), []⟩

/-- A concrete up-sampler returning no samples. -/
def bfill0 : TimeSeries → Int × Int × Int → Int → List (Option ℝ) :=
  fun _ _ _ => []

/-- A concrete up-sampler returning two defined samples. -/
noncomputable def bfill1 : TimeSeries → Int × Int × Int → Int →
    List (Option ℝ) :=
  fun _ _ _ => [some 1, some 2]

/-- A concrete collaborator environment for `get_levels`: empty cache,
step-1 RRD data. -/
def glenv0 : GLEnv :=
  ⟨tenv0, 1000, Option.none, Option.none, rrd0, bfill0,
   fun _ _ => (Option.none, Option.none)⟩

/-- Every period of the table has a positive slice length and its grouping
function computes the offset as `_window_start` over that slice length. -/
theorem groupby_offset_eq (env : TimeEnv) (name : String) (p : PeriodInfo)
    (hp : predictionPeriods env name = some p) (t : Int) :
    0 < p.slice ∧ (p.groupby t).2 = (t - env.tz t) % p.slice := by
  unfold predictionPeriods at hp
  split at hp <;> simp_all <;>
    simp [← hp, groupByWday, groupByDay, groupByDayOfMonth, groupByEveryhour,
      windowStart]

/-- The grouping offset of a table period lies in `[0, slice)`. -/
theorem groupby_offset_bounds (env : TimeEnv) (name : String) (p : PeriodInfo)
    (hp : predictionPeriods env name = some p) (t : Int) :
    0 ≤ (p.groupby t).2 ∧ (p.groupby t).2 < p.slice := by
  obtain ⟨hpos, heq⟩ := groupby_offset_eq env name p hp t
  rw [heq]
  exact ⟨Int.emod_nonneg _ (ne_of_gt hpos), Int.emod_lt_of_pos _ hpos⟩

/-- Membership in `negRange a b s` (for `0 < s`): exactly the values
`a - s * i` that are still above `b`. -/
theorem mem_negRange {a b s : Int} (hs : 0 < s) (x : Int) :
    x ∈ negRange a b s ↔ ∃ i : ℕ, x = a - s * i ∧ b < x := by
  unfold negRange
  by_cases hab : a ≤ b
  · simp only [if_pos hab, List.range_zero, List.map_nil,
      List.not_mem_nil, false_iff]
    rintro ⟨i, rfl, hlt⟩
    have hnn : 0 ≤ s * (i : Int) := mul_nonneg hs.le (Int.ofNat_zero_le i)
    omega
  · simp only [if_neg hab, List.mem_map, List.mem_range]
    have hD0 : (0 : Int) ≤ (a - b + s - 1) / s :=
      Int.ediv_nonneg (by omega) (by omega)
    constructor
    · rintro ⟨i, hi, rfl⟩
      refine ⟨i, rfl, ?_⟩
      have hiZ : (i : Int) + 1 ≤ (a - b + s - 1) / s := by omega
      have h2 := (Int.le_ediv_iff_mul_le hs).mp hiZ
      have hexp : ((i : Int) + 1) * s = s * (i : Int) + s := by ring
      omega
    · rintro ⟨i, rfl, hlt⟩
      refine ⟨i, ?_, rfl⟩
      have hexp : ((i : Int) + 1) * s = s * (i : Int) + s := by ring
      have hle : (i : Int) + 1 ≤ (a - b + s - 1) / s := by
        rw [Int.le_ediv_iff_mul_le hs]; omega
      omega

/-- For `b < a` (and `0 < s`) the range starts at `a` itself. -/
theorem negRange_head {a b s : Int} (hs : 0 < s) (hab : b < a) :
    ∃ rest, negRange a b s = a :: rest := by
  unfold negRange
  have h1 : ¬ a ≤ b := by omega
  have hN : 0 < ((a - b + s - 1) / s).toNat := by
    have : (1 : Int) ≤ (a - b + s - 1) / s := by
      rw [Int.le_ediv_iff_mul_le hs]; omega
    omega
  simp only [if_neg h1]
  obtain ⟨n, hn⟩ : ∃ n, ((a - b + s - 1) / s).toNat = n + 1 :=
    ⟨_, (Nat.succ_pred_eq_of_pos hN).symm⟩
  refine ⟨(List.range n).map fun (i : Nat) => a - s * ((i : Int) + 1), ?_⟩
  rw [hn, List.range_succ_eq_map]
  simp only [List.map_cons, Nat.cast_zero, mul_zero, sub_zero, List.map_map]
  congr 1

/-- A `filterMap` whose function is an if-then-some-else-none is the map
over the filtered list. -/
theorem filterMap_ite {α β : Type} (q : α → Prop) [DecidablePred q]
    (g : α → β) (l : List α) :
    (l.filterMap fun b => if q b then some (g b) else none) =
      (l.filter fun b => decide (q b)).map g := by
  induction l with
  | nil => rfl
  | cons x xs ih =>
    by_cases h : q x <;>
      simp [List.filterMap_cons, List.filter_cons, h, ih]

/-- Successive elements of `negRange` are at least `s` apart. -/
theorem negRange_pairwise {a b s : Int} (hs : 0 < s) :
    (negRange a b s).Pairwise (fun x y => y + s ≤ x) := by
  unfold negRange
  rw [List.pairwise_map]
  refine (List.pairwise_lt_range _).imp ?_
  intro i j hij
  have h1 : (i : Int) + 1 ≤ (j : Int) := by exact_mod_cast hij
  have h2 : s * ((i : Int) + 1) ≤ s * (j : Int) :=
    mul_le_mul_of_nonneg_left h1 hs.le
  have h3 : s * ((i : Int) + 1) = s * (i : Int) + s := by ring
  omega

/-- C1: for every timestamp `t` and every supported period,
`_get_prediction_timegroup` returns `(timegroup, slice_start, slice_end,
offset)` with `offset = (t - local_utc_offset_at(t)) % slice_length`,
`slice_start = t - offset`, `slice_end = slice_start + slice_length`;
consequently `slice_start ≤ t < slice_end` and
`slice_end - slice_start = slice_length`. -/
theorem getPredictionTimegroup_spec (env : TimeEnv) (name : String)
    (p : PeriodInfo) (hp : predictionPeriods env name = some p) (t : Int) :
    (getPredictionTimegroup p t).2.2.2 = (t - env.tz t) % p.slice ∧
    (getPredictionTimegroup p t).2.1 = t - (getPredictionTimegroup p t).2.2.2 ∧
    (getPredictionTimegroup p t).2.2.1 =
      (getPredictionTimegroup p t).2.1 + p.slice ∧
    (getPredictionTimegroup p t).2.1 ≤ t ∧
    t < (getPredictionTimegroup p t).2.2.1 ∧
    (getPredictionTimegroup p t).2.2.1 - (getPredictionTimegroup p t).2.1 =
      p.slice := by
  obtain ⟨hpos, heq⟩ := groupby_offset_eq env name p hp t
  obtain ⟨h0, h1⟩ := groupby_offset_bounds env name p hp t
  simp only [getPredictionTimegroup]
  refine ⟨heq, ?_, ?_, ?_, ?_, ?_⟩ <;> first | trivial | omega

/-- C1 witness: the resolver contract instantiated for the "minute" period
at timestamp 5000 in a concrete environment. -/
theorem getPredictionTimegroup_spec_witness :
    (getPredictionTimegroup ⟨3600, groupByEveryhour tenv0, 24⟩ 5000).2.2.2 =
      (5000 - tenv0.tz 5000) % (3600 : Int) ∧
    (getPredictionTimegroup ⟨3600, groupByEveryhour tenv0, 24⟩ 5000).2.1 =
      5000 - (getPredictionTimegroup ⟨3600, groupByEveryhour tenv0, 24⟩
        5000).2.2.2 ∧
    (getPredictionTimegroup ⟨3600, groupByEveryhour tenv0, 24⟩ 5000).2.2.1 =
      (getPredictionTimegroup ⟨3600, groupByEveryhour tenv0, 24⟩ 5000).2.1 +
        3600 ∧
    (getPredictionTimegroup ⟨3600, groupByEveryhour tenv0, 24⟩ 5000).2.1 ≤
      5000 ∧
    (5000 : Int) <
      (getPredictionTimegroup ⟨3600, groupByEveryhour tenv0, 24⟩
        5000).2.2.1 ∧
    (getPredictionTimegroup ⟨3600, groupByEveryhour tenv0, 24⟩ 5000).2.2.1 -
      (getPredictionTimegroup ⟨3600, groupByEveryhour tenv0, 24⟩ 5000).2.1 =
      3600 :=
  getPredictionTimegroup_spec tenv0 "minute" ⟨3600, groupByEveryhour tenv0, 24⟩
    rfl 5000

/-- C2: `_time_slices` returns exactly the windows of the backward steps
`timestamp - slice * i` that stay above `timestamp - horizon` and whose
resolved timegroup equals the target — most recent first (window starts
strictly decreasing), empty iff no step qualifies, and when the target is
the current timestamp's own timegroup and the horizon covers at least one
slice, the most recent slice is the head of the result. -/
theorem timeSlices_spec (env : TimeEnv) (name : String) (p : PeriodInfo)
    (hp : predictionPeriods env name = some p) (ts hz : Int) (tg : String) :
    (∀ w : Int × Int,
      w ∈ timeSlices p ts hz tg ↔
        ∃ i : ℕ, ts - hz < ts - p.slice * i ∧
          (getPredictionTimegroup p (ts - p.slice * i)).1 = tg ∧
          w = ((getPredictionTimegroup p (ts - p.slice * i)).2.1,
               (getPredictionTimegroup p (ts - p.slice * i)).2.2.1)) ∧
    (timeSlices p ts hz tg = [] ↔
      ¬ ∃ i : ℕ, ts - hz < ts - p.slice * i ∧
          (getPredictionTimegroup p (ts - p.slice * i)).1 = tg) ∧
    (timeSlices p ts hz tg).Pairwise (fun w1 w2 => w2.1 < w1.1) ∧
    ((getPredictionTimegroup p ts).1 = tg → p.slice ≤ hz →
      (timeSlices p ts hz tg).head? =
        some ((getPredictionTimegroup p ts).2.1,
              (getPredictionTimegroup p ts).2.2.1)) := by
  have hs : 0 < p.slice := (groupby_offset_eq env name p hp 0).1
  have hmem : ∀ w : Int × Int,
      w ∈ timeSlices p ts hz tg ↔
        ∃ i : ℕ, ts - hz < ts - p.slice * i ∧
          (getPredictionTimegroup p (ts - p.slice * i)).1 = tg ∧
          w = ((getPredictionTimegroup p (ts - p.slice * i)).2.1,
               (getPredictionTimegroup p (ts - p.slice * i)).2.2.1) := by
    intro w
    unfold timeSlices
    rw [List.mem_filterMap]
    constructor
    · rintro ⟨b, hb, hf⟩
      obtain ⟨i, rfl, hlt⟩ := (mem_negRange hs b).mp hb
      simp only at hf
      split at hf
      · rename_i htg
        exact ⟨i, by omega, htg, by simp [← Option.some_inj.mp hf]⟩
      · exact absurd hf (by simp)
    · rintro ⟨i, hlt, htg, rfl⟩
      refine ⟨ts - p.slice * i, (mem_negRange hs _).mpr ⟨i, rfl, by omega⟩, ?_⟩
      simp [htg]
  refine ⟨hmem, ?_, ?_, ?_⟩
  · rw [List.eq_nil_iff_forall_not_mem]
    constructor
    · intro h hex
      obtain ⟨i, hlt, htg⟩ := hex
      exact h _ ((hmem _).mpr ⟨i, hlt, htg, rfl⟩)
    · intro h w hw
      obtain ⟨i, hlt, htg, _⟩ := (hmem w).mp hw
      exact h ⟨i, hlt, htg⟩
  · unfold timeSlices
    rw [filterMap_ite (fun b => (getPredictionTimegroup p b).1 = tg)
      (fun b => ((getPredictionTimegroup p b).2.1,
                 (getPredictionTimegroup p b).2.2.1))]
    rw [List.pairwise_map]
    refine List.Pairwise.sublist (List.filter_sublist _) ?_
    refine (negRange_pairwise hs).imp ?_
    intro x y hxy
    have hbx := groupby_offset_bounds env name p hp x
    have hby := groupby_offset_bounds env name p hp y
    simp only [getPredictionTimegroup]
    omega
  · intro htg hhz
    obtain ⟨rest, hr⟩ := negRange_head hs (show ts - hz < ts by omega)
    unfold timeSlices
    rw [hr]
    simp [List.filterMap_cons, htg]

/-- C2 witness: the slice-collector contract instantiated for the "minute"
period at timestamp 10000, horizon 7200, target timegroup "everyhour". -/
theorem timeSlices_spec_witness :
    (∀ w : Int × Int,
      w ∈ timeSlices p0 10000 7200 "everyhour" ↔
        ∃ i : ℕ, (10000 : Int) - 7200 < 10000 - p0.slice * i ∧
          (getPredictionTimegroup p0 (10000 - p0.slice * i)).1 = "everyhour" ∧
          w = ((getPredictionTimegroup p0 (10000 - p0.slice * i)).2.1,
               (getPredictionTimegroup p0 (10000 - p0.slice * i)).2.2.1)) ∧
    (timeSlices p0 10000 7200 "everyhour" = [] ↔
      ¬ ∃ i : ℕ, (10000 : Int) - 7200 < 10000 - p0.slice * i ∧
          (getPredictionTimegroup p0 (10000 - p0.slice * i)).1 =
            "everyhour") ∧
    (timeSlices p0 10000 7200 "everyhour").Pairwise
      (fun w1 w2 => w2.1 < w1.1) ∧
    ((getPredictionTimegroup p0 10000).1 = "everyhour" →
      p0.slice ≤ (7200 : Int) →
      (timeSlices p0 10000 7200 "everyhour").head? =
        some ((getPredictionTimegroup p0 10000).2.1,
              (getPredictionTimegroup p0 10000).2.2.1)) :=
  timeSlices_spec tenv0 "minute" p0 rfl 10000 7200 "everyhour"

/-- C3: `_std_dev` returns `abs(avg)` for one sample and the
sum-of-squares sample standard deviation for more; on `[5.0]` it returns
`5.0` and on `[2.0, 4.0]` with mean `3.0` it returns `sqrt 2`. -/
theorem stdDev_spec :
    (∀ (l : List ℝ) (avg : ℝ), l.length = 1 → stdDev l avg = |avg|) ∧
    (∀ (l : List ℝ) (avg : ℝ), 1 < l.length →
      stdDev l avg =
        Real.sqrt
          (|(l.map fun p => p ^ 2).sum - avg ^ 2 * (l.length : ℝ)| /
            ((l.length : ℝ) - 1))) ∧
    stdDev [(5 : ℝ)] 5 = 5 ∧
    stdDev [(2 : ℝ), 4] 3 = Real.sqrt 2 := by
  refine ⟨fun l avg h => by simp [stdDev, h], fun l avg h => ?_, ?_, ?_⟩
  · have h1 : l.length ≠ 1 := by omega
    simp [stdDev, h1]
  · simp [stdDev]
  · have h1 : ([(2 : ℝ), 4]).length ≠ 1 := by simp
    simp only [stdDev, if_neg h1]
    norm_num

/-- C3 witness: the two documented sample computations via the theorem. -/
theorem stdDev_spec_witness :
    stdDev [(5 : ℝ)] 5 = |(5 : ℝ)| ∧
    stdDev [(2 : ℝ), 4] 3 =
      Real.sqrt
        (|(([(2 : ℝ), 4]).map fun p => p ^ 2).sum -
            3 ^ 2 * ((([(2 : ℝ), 4]).length : ℕ) : ℝ)| /
          (((([(2 : ℝ), 4]).length : ℕ) : ℝ) - 1)) :=
  ⟨stdDev_spec.1 [(5 : ℝ)] 5 rfl, stdDev_spec.2.1 [(2 : ℝ), 4] 3 (by simp)⟩

/-- `Rat.floor` agrees with the floor of the order structure. -/
theorem rat_floor_eq (q : ℚ) : q.floor = ⌊q⌋ := by
  rw [Rat.floor_def, Rat.floor_def']

/-- C4 counterexample: with stored `computed_at = 0`, the "wday" period
(`valid_slice_count = 7`, `slice_length = 86400`) and matching parameters,
the cache is still reported fresh at `now = 0 + 7*86400` exactly — the
claim says freshness fails at that instant, but the strict `<` comparison
in `_is_prediction_up_to_date` keeps it fresh there. -/
theorem isPredictionUpToDate_boundary_counterexample :
    isPredictionUpToDate tenv0
      (some ⟨0, some (jsonRoundtrip
        (PyVal.dict (.cons "period" (.str "wday") .nil)))⟩)
      604800
      ⟨"wday", 90, PyVal.dict (.cons "period" (.str "wday") .nil)⟩ =
      some true := by decide

/-- C4 (amended): `_is_prediction_up_to_date` returns `false` when the
metadata is absent, `false` when `computed_at + valid*slice < now`,
`false` when the stored params differ from the round-tripped current
params, and `true` otherwise; for the "wday" period (`valid = 7`,
`slice = 86400`) freshness holds for every `now` up to AND INCLUDING
`T0 + 7*86400` and fails strictly after that instant. -/
theorem isPredictionUpToDate_spec (env : TimeEnv) (info : LastInfo)
    (now : Int) (params : Params) (pinfo : PeriodInfo)
    (hp : predictionPeriods env params.period = some pinfo) :
    (isPredictionUpToDate env Option.none now params = some false) ∧
    (info.time + pinfo.valid * pinfo.slice < now →
      isPredictionUpToDate env (some info) now params = some false) ∧
    (storedParamsMatch info.params params.raw = false →
      isPredictionUpToDate env (some info) now params = some false) ∧
    (¬ info.time + pinfo.valid * pinfo.slice < now →
      storedParamsMatch info.params params.raw = true →
      isPredictionUpToDate env (some info) now params = some true) ∧
    (params.period = "wday" →
      storedParamsMatch info.params params.raw = true →
      now ≤ info.time + 7 * 86400 →
      isPredictionUpToDate env (some info) now params = some true) ∧
    (params.period = "wday" → info.time + 7 * 86400 < now →
      isPredictionUpToDate env (some info) now params = some false) := by
  have hwday : params.period = "wday" → pinfo.valid = 7 ∧ pinfo.slice = 86400 := by
    intro hper
    rw [hper] at hp
    have h2 : some (⟨86400, groupByWday env, 7⟩ : PeriodInfo) = some pinfo :=
      by rw [← hp]; rfl
    rw [← Option.some_inj.mp h2]
    exact ⟨rfl, rfl⟩
  refine ⟨rfl, ?_, ?_, ?_, ?_, ?_⟩
  · intro h
    simp only [isPredictionUpToDate, hp, if_pos h]
  · intro h
    simp only [isPredictionUpToDate, hp, h]
    split <;> rfl
  · intro h1 h2
    simp only [isPredictionUpToDate, hp, if_neg h1, h2, if_true]
  · intro hper h2 h3
    obtain ⟨hv, hsl⟩ := hwday hper
    have hnot : ¬ info.time + pinfo.valid * pinfo.slice < now := by
      rw [hv, hsl]; omega
    simp only [isPredictionUpToDate, hp, if_neg hnot, h2, if_true]
  · intro hper h2
    obtain ⟨hv, hsl⟩ := hwday hper
    have hlt : info.time + pinfo.valid * pinfo.slice < now := by
      rw [hv, hsl]; omega
    simp only [isPredictionUpToDate, hp, if_pos hlt]

/-- C4 witness: a time-fresh cache entry with matching parameters one
second before the freshness boundary is reported up to date. -/
theorem isPredictionUpToDate_spec_witness :
    isPredictionUpToDate tenv0
      (some ⟨0, some (jsonRoundtrip
        (PyVal.dict (.cons "period" (.str "wday") .nil)))⟩)
      604799
      ⟨"wday", 90, PyVal.dict (.cons "period" (.str "wday") .nil)⟩ =
      some true :=
  (isPredictionUpToDate_spec tenv0
    ⟨0, some (jsonRoundtrip
      (PyVal.dict (.cons "period" (.str "wday") .nil)))⟩
    604799
    ⟨"wday", 90, PyVal.dict (.cons "period" (.str "wday") .nil)⟩
    ⟨86400, groupByWday tenv0, 7⟩ rfl).2.2.2.2.1 rfl (by decide) (by decide)

/-- C5: on a non-empty window list, `_retrieve_grouped_data_from_rrd`
raises the no-historic-data exception iff the native step of the series
fetched for the first (most recent) window is zero; otherwise it returns
the first window's native `twindow` and every series up-sampled onto it
with shift `first start - own start`. -/
theorem retrieveGroupedDataFromRrd_spec (rrd : Int → Int → TimeSeries)
    (bfill : TimeSeries → Int × Int × Int → Int → List (Option ℝ))
    (s0 e0 : Int) (rest : List (Int × Int)) :
    (retrieveGroupedDataFromRrd rrd bfill ((s0, e0) :: rest) =
        .error .noHistoricData ↔ (rrd s0 e0).twindow.2.2 = 0) ∧
    ((rrd s0 e0).twindow.2.2 ≠ 0 →
      retrieveGroupedDataFromRrd rrd bfill ((s0, e0) :: rest) =
        .ok ((rrd s0 e0).twindow,
             ((s0, e0) :: rest).map fun w =>
               bfill (rrd w.1 w.2) (rrd s0 e0).twindow (s0 - w.1))) := by
  constructor
  · by_cases h : (rrd s0 e0).twindow.2.2 = 0 <;>
      simp [retrieveGroupedDataFromRrd, h]
  · intro h
    simp only [retrieveGroupedDataFromRrd, if_neg h]
    rw [List.map_map]
    rfl

/-- C5 witness: the resampler contract at a single window `(0, 10)` with a
step-1 fetch. -/
theorem retrieveGroupedDataFromRrd_spec_witness :
    retrieveGroupedDataFromRrd rrd0 bfill0 [((0 : Int), (10 : Int))] =
      .ok ((rrd0 0 10).twindow,
           ([((0 : Int), (10 : Int))]).map fun w =>
             bfill0 (rrd0 w.1 w.2) (rrd0 0 10).twindow (0 - w.1)) :=
  (retrieveGroupedDataFromRrd_spec rrd0 bfill0 0 10 []).2 (by decide)

/-- The descriptor at time offset `i` is the summary of the column at
index `i` across all series. -/
theorem dataStats_getD (slices : List (List (Option ℝ))) (i : Nat)
    (h : i < minLen slices) :
    (dataStats slices).getD i [] =
      colStats (slices.map fun s => s.getD i Option.none) := by
  unfold dataStats pyTranspose
  rw [List.map_map]
  rw [List.getD_eq_getElem?_getD, List.getElem?_map, List.getElem?_range h]
  rfl

/-- C6: `_data_stats` computes the point statistics over only the
non-null values of the column at each time-offset index, and a column with
zero defined values yields `[None, None, None, None]`. -/
theorem dataStats_spec (slices : List (List (Option ℝ))) (i : Nat)
    (h : i < minLen slices) :
    (dataStats slices).getD i [] =
      colStats (slices.map fun s => s.getD i Option.none) ∧
    (((slices.map fun s => s.getD i Option.none).filterMap fun x => x)
        = [] →
      (dataStats slices).getD i [] =
        [Option.none, Option.none, Option.none, Option.none]) ∧
    (∀ pl : List ℝ,
      pl = ((slices.map fun s => s.getD i Option.none).filterMap
        fun x => x) →
      pl ≠ [] →
      (dataStats slices).getD i [] =
        [some (pl.sum / (pl.length : ℝ)), some (pyMin pl), some (pyMax pl),
         some (stdDev pl (pl.sum / (pl.length : ℝ)))]) := by
  have key := dataStats_getD slices i h
  refine ⟨key, ?_, ?_⟩
  · intro hempty
    rw [key]
    unfold colStats
    simp only [hempty]
    simp
  · intro pl hpl hne
    rw [key]
    unfold colStats
    rw [← hpl]
    simp [List.isEmpty_iff, hne]

/-- C6 witness: two series whose first column has no defined value
produce the all-null descriptor at offset 0. -/
theorem dataStats_spec_witness :
    ((dataStats [[Option.none], [Option.none]]).getD 0 [] =
      colStats (([[Option.none], [Option.none]] :
        List (List (Option ℝ))).map fun s => s.getD 0 Option.none)) ∧
    (((([[Option.none], [Option.none]] :
        List (List (Option ℝ))).map fun s => s.getD 0 Option.none).filterMap
          fun x => x) = [] →
      (dataStats [[Option.none], [Option.none]]).getD 0 [] =
        [Option.none, Option.none, Option.none, Option.none]) ∧
    (∀ pl : List ℝ,
      pl = ((([[Option.none], [Option.none]] :
        List (List (Option ℝ))).map fun s => s.getD 0 Option.none).filterMap
          fun x => x) →
      pl ≠ [] →
      (dataStats [[Option.none], [Option.none]]).getD 0 [] =
        [some (pl.sum / (pl.length : ℝ)), some (pyMin pl), some (pyMax pl),
         some (stdDev pl (pl.sum / (pl.length : ℝ)))]) :=
  dataStats_spec [[Option.none], [Option.none]] 0 (by decide)

/-- A `min`-fold is bounded by its initial value. -/
theorem foldl_min_le_init (xs : List ℝ) (c : ℝ) : xs.foldl min c ≤ c := by
  induction xs generalizing c with
  | nil => simp
  | cons y ys ih => exact le_trans (ih (min c y)) (min_le_left _ _)

/-- A `min`-fold is bounded by every list element. -/
theorem foldl_min_le_mem (xs : List ℝ) (c : ℝ) :
    ∀ x ∈ xs, xs.foldl min c ≤ x := by
  induction xs generalizing c with
  | nil => simp
  | cons y ys ih =>
    intro x hx
    rcases List.mem_cons.mp hx with rfl | hx2
    · exact le_trans (foldl_min_le_init ys (min c x)) (min_le_right _ _)
    · exact ih (min c y) x hx2

/-- A `max`-fold dominates its initial value. -/
theorem init_le_foldl_max (xs : List ℝ) (c : ℝ) : c ≤ xs.foldl max c := by
  induction xs generalizing c with
  | nil => simp
  | cons y ys ih => exact le_trans (le_max_left _ _) (ih (max c y))

/-- A `max`-fold dominates every list element. -/
theorem mem_le_foldl_max (xs : List ℝ) (c : ℝ) :
    ∀ x ∈ xs, x ≤ xs.foldl max c := by
  induction xs generalizing c with
  | nil => simp
  | cons y ys ih =>
    intro x hx
    rcases List.mem_cons.mp hx with rfl | hx2
    · exact le_trans (le_max_right _ _) (init_le_foldl_max ys (max c x))
    · exact ih (max c y) x hx2

/-- Python `min` of a list bounds every element. -/
theorem pyMin_le (l : List ℝ) : ∀ x ∈ l, pyMin l ≤ x := by
  cases l with
  | nil => simp
  | cons y ys =>
    intro x hx
    rcases List.mem_cons.mp hx with rfl | hx2
    · exact foldl_min_le_init ys x
    · exact foldl_min_le_mem ys y x hx2

/-- Python `max` of a list dominates every element. -/
theorem le_pyMax (l : List ℝ) : ∀ x ∈ l, x ≤ pyMax l := by
  cases l with
  | nil => simp
  | cons y ys =>
    intro x hx
    rcases List.mem_cons.mp hx with rfl | hx2
    · exact init_le_foldl_max ys x
    · exact mem_le_foldl_max ys y x hx2

/-- `_std_dev` never returns a negative value. -/
theorem stdDev_nonneg (l : List ℝ) (avg : ℝ) : 0 ≤ stdDev l avg := by
  unfold stdDev
  split
  · exact abs_nonneg _
  · exact Real.sqrt_nonneg _

/-- C9: for every time-offset column with at least one defined value the
descriptor satisfies `min ≤ average ≤ max` and has a non-negative standard
deviation. -/
theorem dataStats_bounds_spec (slices : List (List (Option ℝ))) (i : Nat)
    (h : i < minLen slices)
    (hne : ((slices.map fun s => s.getD i Option.none).filterMap
      fun x => x) ≠ []) :
    ∃ a mn mx sd : ℝ,
      (dataStats slices).getD i [] = [some a, some mn, some mx, some sd] ∧
      mn ≤ a ∧ a ≤ mx ∧ 0 ≤ sd := by
  have key := dataStats_getD slices i h
  set pl : List ℝ :=
    (slices.map fun s => s.getD i Option.none).filterMap fun x => x
    with hpl
  have hlen : 0 < pl.length := List.length_pos.mpr hne
  have hlenR : (0 : ℝ) < (pl.length : ℝ) := by exact_mod_cast hlen
  refine ⟨pl.sum / (pl.length : ℝ), pyMin pl, pyMax pl,
    stdDev pl (pl.sum / (pl.length : ℝ)), ?_, ?_, ?_, stdDev_nonneg _ _⟩
  · rw [key]
    unfold colStats
    simp only [← hpl]
    rw [if_neg (by simp [List.isEmpty_iff, hne])]
  · rw [le_div_iff₀ hlenR]
    have h1 := List.card_nsmul_le_sum pl (pyMin pl) (pyMin_le pl)
    rw [nsmul_eq_mul] at h1
    linarith [h1]
  · rw [div_le_iff₀ hlenR]
    have h1 := List.sum_le_card_nsmul pl (pyMax pl) (le_pyMax pl)
    rw [nsmul_eq_mul] at h1
    linarith [h1]

/-- C9 witness: the column `[2, 4]` yields a descriptor with
`min ≤ average ≤ max` and non-negative standard deviation. -/
theorem dataStats_bounds_spec_witness :
    ∃ a mn mx sd : ℝ,
      (dataStats [[some 2], [some 4]]).getD 0 [] =
        [some a, some mn, some mx, some sd] ∧
      mn ≤ a ∧ a ≤ mx ∧ 0 ≤ sd :=
  dataStats_bounds_spec [[some 2], [some 4]] 0 (by decide) (by simp)

/-- C8: every prediction summary produced by
`_calculate_data_for_prediction` has `num_points = len(points)`, the
columns `["average", "min", "max", "stdev"]`, `data_twindow` equal to the
first two components of the common `twindow` (the native window of the
youngest slice) and `step` equal to its third component. -/
theorem calculateDataForPrediction_spec (rrd : Int → Int → TimeSeries)
    (bfill : TimeSeries → Int × Int × Int → Int → List (Option ℝ))
    (tws : List (Int × Int)) (d : PredictionData)
    (h : calculateDataForPrediction rrd bfill tws = .ok d) :
    d.numPoints = d.points.length ∧
    d.columns = ["average", "min", "max", "stdev"] ∧
    ∃ s0 e0 rest, tws = (s0, e0) :: rest ∧
      d.dataTwindow = [(rrd s0 e0).twindow.1, (rrd s0 e0).twindow.2.1] ∧
      d.step = (rrd s0 e0).twindow.2.2 := by
  cases tws with
  | nil => simp [calculateDataForPrediction, retrieveGroupedDataFromRrd] at h
  | cons w rest =>
    obtain ⟨s0, e0⟩ := w
    by_cases hz : (rrd s0 e0).twindow.2.2 = 0
    · simp [calculateDataForPrediction, retrieveGroupedDataFromRrd, hz] at h
    · simp only [calculateDataForPrediction, retrieveGroupedDataFromRrd,
        if_neg hz] at h
      obtain rfl := (Except.ok.inj h).symm
      exact ⟨rfl, rfl, s0, e0, rest, rfl, rfl, rfl⟩

/-- C8 witness: the summary computed from one window `(0, 10)` with two
samples satisfies all four invariants. -/
theorem calculateDataForPrediction_spec_witness :
    (⟨["average", "min", "max", "stdev"],
      dataStats [[some (1 : ℝ), some 2]],
      (dataStats [[some (1 : ℝ), some 2]]).length, [0, 10], 1⟩ :
        PredictionData).numPoints =
      (⟨["average", "min", "max", "stdev"],
        dataStats [[some (1 : ℝ), some 2]],
        (dataStats [[some (1 : ℝ), some 2]]).length, [0, 10], 1⟩ :
          PredictionData).points.length ∧
    (⟨["average", "min", "max", "stdev"],
      dataStats [[some (1 : ℝ), some 2]],
      (dataStats [[some (1 : ℝ), some 2]]).length, [0, 10], 1⟩ :
        PredictionData).columns = ["average", "min", "max", "stdev"] ∧
    ∃ s0 e0 rest, [((0 : Int), (10 : Int))] = (s0, e0) :: rest ∧
      (⟨["average", "min", "max", "stdev"],
        dataStats [[some (1 : ℝ), some 2]],
        (dataStats [[some (1 : ℝ), some 2]]).length, [0, 10], 1⟩ :
          PredictionData).dataTwindow =
        [(rrd0 s0 e0).twindow.1, (rrd0 s0 e0).twindow.2.1] ∧
      (⟨["average", "min", "max", "stdev"],
        dataStats [[some (1 : ℝ), some 2]],
        (dataStats [[some (1 : ℝ), some 2]]).length, [0, 10], 1⟩ :
          PredictionData).step = (rrd0 s0 e0).twindow.2.2 :=
  calculateDataForPrediction_spec rrd0 bfill1 [((0 : Int), (10 : Int))]
    ⟨["average", "min", "max", "stdev"],
     dataStats [[some (1 : ℝ), some 2]],
     (dataStats [[some (1 : ℝ), some 2]]).length, [0, 10], 1⟩ rfl

/-- A period name outside the table resolves to no period. -/
theorem predictionPeriods_eq_none (env : TimeEnv) (name : String)
    (h : name ∉ (["wday", "day", "hour", "minute"] : List String)) :
    predictionPeriods env name = none := by
  unfold predictionPeriods
  split <;> simp_all

/-- C7: with a `period` value outside `{wday, day, hour, minute}`,
`get_levels` raises the configuration lookup error before performing any
file-system effect: no directory creation, no cache read, cleanup or
write. -/
theorem getLevels_unknown_period_spec (env : GLEnv) (params : Params)
    (h : params.period ∉ (["wday", "day", "hour", "minute"] : List String)) :
    getLevels env params = (.error .keyError, []) := by
  have hp := predictionPeriods_eq_none env.tenv params.period h
  unfold getLevels
  rw [hp]

/-- C7 witness: an unknown period "fortnight" makes `get_levels` fail fast
with an empty effect trace. -/
theorem getLevels_unknown_period_spec_witness :
    getLevels glenv0 ⟨"fortnight", 1, PyVal.dict .nil⟩ =
      (.error .keyError, []) :=
  getLevels_unknown_period_spec glenv0 ⟨"fortnight", 1, PyVal.dict .nil⟩
    (by decide)

/-- C10: an empty window list makes `_retrieve_grouped_data_from_rrd`
raise `IndexError` (from `time_windows[0][0]`), not the no-historic-data
exception; consequently, on a cache miss with an empty slice collection,
`get_levels` fails with `IndexError` after its cache cleanup. -/
theorem emptyWindows_indexError_spec (rrd : Int → Int → TimeSeries)
    (bfill : TimeSeries → Int × Int × Int → Int → List (Option ℝ)) :
    retrieveGroupedDataFromRrd rrd bfill [] = .error .indexError ∧
    PyErr.indexError ≠ PyErr.noHistoricData ∧
    (∀ (env : GLEnv) (params : Params) (pinfo : PeriodInfo),
      predictionPeriods env.tenv params.period = some pinfo →
      env.lastInfo = Option.none →
      timeSlices pinfo env.now (pyInt (params.horizon * 86400))
          ((pinfo.groupby env.now).1) = [] →
      getLevels env params =
        (.error .indexError,
         [.makedirs, .cleanupStale, .readInfoFile, .cleanupForce,
          .fetchRrdData])) := by
  refine ⟨rfl, by decide, ?_⟩
  intro env params pinfo hp hlast hts
  unfold getLevels
  rw [hp, hlast]
  simp only [isPredictionUpToDate]
  rw [hts]
  simp [calculateDataForPrediction, retrieveGroupedDataFromRrd]

/-- C10 witness: horizon 0 yields no slices, and `get_levels` on a cold
cache fails with `IndexError`. -/
theorem emptyWindows_indexError_spec_witness :
    getLevels glenv0 ⟨"minute", 0, PyVal.dict .nil⟩ =
      (.error .indexError,
       [.makedirs, .cleanupStale, .readInfoFile, .cleanupForce,
        .fetchRrdData]) :=
  (emptyWindows_indexError_spec rrd0 bfill0).2.2 glenv0
    ⟨"minute", 0, PyVal.dict .nil⟩ ⟨3600, groupByEveryhour tenv0, 24⟩
    rfl rfl
    (by rw [show pyInt ((0 : ℚ) * 86400) = 0 by
          norm_num [pyInt, rat_floor_eq]]
        decide)

end CmkPrediction
